import Mathlib

/-!
Shallow embedding of the typography analysis-and-correction engine of the
typography-agent-illustrator repository, together with proofs checking the
frozen claims about it.

Sources embedded here:
* the ExtendScript host script (src/unnamed/part_002): the functions
  `autoFitText`, `shouldApplyRule`, `applyFormattingRule`, `applyHierarchyFix`,
  `applyKerningFix`, `applyReadabilityFix`, `applyAlignmentFix`,
  `TypographyAgent.applyTypographyFix` and `TypographyAgent.batchFormatText`;
* the CEP panel analyzer (src/cep_extension/js/typographyAnalyzer.js): the
  methods `analyzeFontPairing`, `analyzeReadability`, `analyzeHierarchy` and
  `categorizeFontFamily` of class `TypographyAnalyzer`.

Modelling conventions:
* JavaScript numbers are modelled as rationals (the algorithms only use
  +, *, /, comparisons and fixed decimal literals; 0.95 is 19/20, 1.05 is
  21/20, 1.25 is 5/4, 1.15 is 23/20, 1.2 is 6/5, 1.8 is 9/5, 0.1 is 1/10).
  The single place where the source can produce NaN (multiplying the possibly
  undefined rule.fontSize) is modelled explicitly with the type JNum.
* A possibly-absent JavaScript property is an Option; the JavaScript
  truthiness tests of the source (if (x), x || d) are modelled by jsOr /
  explicit zero and empty-string tests, exactly where the source tests them.
* The host overflow probe (reads of textFrame.overflowed) is an arbitrary
  boolean stream, consumed one value per read, with the number of reads
  threaded through the state; every evaluation of a while-condition in the
  source reads the probe once, exactly as property access does in the source.
* The host in-place mutations of text frames are modelled by returning the
  updated frame list; frames are distinct host objects, so a frame's final
  state is the last value written to that frame.
* JavaScript Array.prototype.sort is stable (ES2019); it is modelled by
  List.insertionSort with the non-strict descending comparison, which places
  an earlier element before later elements of equal key, i.e. is stable.
-/

/-- JavaScript number that may be NaN: result of arithmetic on a possibly
undefined property. -/
inductive JNum where
  | nan : JNum
  | val (q : ℚ) : JNum
deriving DecidableEq

/-- Multiplication with a possibly-undefined left operand, as in the source
expression rule.fontSize * rule.lineHeight: undefined * x is NaN. -/
def jsMulOpt (a : Option ℚ) (b : ℚ) : JNum :=
  match a with
  | none => JNum.nan
  | some q => JNum.val (q * b)

/-- JavaScript a || d for numbers: undefined and 0 are falsy. -/
def jsOr (a : Option ℚ) (d : ℚ) : ℚ :=
  match a with
  | none => d
  | some q => if q = 0 then d else q

/-- JavaScript a || d for strings: undefined and the empty string are falsy. -/
def jsOrS (a : Option String) (d : String) : String :=
  match a with
  | none => d
  | some s => if s = "" then d else s

/-- Lower-casing at the character-list level (matches String.prototype
.toLowerCase on the ASCII font names used by the source). -/
def lowerChars (s : String) : List Char :=
  s.data.map Char.toLower

/-- Substring containment test at the character-list level (matches
String.prototype.includes / indexOf !== -1 in the source). -/
def charsContains (hay pat : List Char) : Bool :=
  (List.range (hay.length + 1)).any fun i => pat.isPrefixOf (hay.drop i)

/-! ## AutoFitSolver: autoFitText of src/unnamed/part_002

The source:

    var maxIterations = 20;
    var iteration = 0;
    var baseFontSize = params.baseFontSize || 12;
    var maxFontSize = params.maxFontSize || 72;
    textRange.characterAttributes.size = baseFontSize;
    while (textFrame.overflowed && iteration < maxIterations) \x7b
        textRange.characterAttributes.size *= 0.95;
        iteration++;
    \x7d
    iteration = 0;
    while (!textFrame.overflowed &&
           textRange.characterAttributes.size < maxFontSize &&
           iteration < maxIterations) \x7b
        textRange.characterAttributes.size *= 1.05;
        iteration++;
        if (textFrame.overflowed) \x7b
            textRange.characterAttributes.size *= 0.95;
            break;
        \x7d
    \x7d

Each evaluation of a while-condition reads textFrame.overflowed once
(JavaScript && is left-to-right and short-circuiting, with the probe read
first), and the if inside the grow loop reads it once more per iteration.
The probe is a stream probe : Nat -> Bool; probe k is the answer to the
(k+1)-st read. The state is (current size, number of reads so far); fuel
counts the remaining iteration budget maxIterations - iteration. -/

/-- Per-phase iteration cap of autoFitText. -/
def maxIterations : Nat := 20

/-- Shrink phase of autoFitText: while (overflowed && iteration < cap)
size *= 0.95. The condition reads the probe once per evaluation, including
the final failing one. -/
def shrinkLoop (probe : Nat → Bool) : Nat → ℚ → Nat → ℚ × Nat
  | 0, size, calls => (size, calls + 1)
  | fuel + 1, size, calls =>
    if probe calls then shrinkLoop probe fuel (size * (19/20)) (calls + 1)
    else (size, calls + 1)

/-- Grow phase of autoFitText: while (!overflowed && size < maxFontSize &&
iteration < cap), size *= 1.05, then one more probe read; if it reports
overflow, one corrective *= 0.95 and break. -/
def growLoop (probe : Nat → Bool) (maxFS : ℚ) : Nat → ℚ → Nat → ℚ × Nat
  | 0, size, calls => (size, calls + 1)
  | fuel + 1, size, calls =>
    if probe calls then (size, calls + 1)
    else if size < maxFS then
      if probe (calls + 1) then (size * (21/20) * (19/20), calls + 2)
      else growLoop probe maxFS fuel (size * (21/20)) (calls + 2)
    else (size, calls + 1)

/-- Parameters of autoFitText (AdjustmentParams of the spec). -/
structure FitParams where
  baseFontSize : Option ℚ
  maxFontSize : Option ℚ

/-- autoFitText of src/unnamed/part_002: returns the final font size left on
the frame and the total number of overflow-probe reads performed. -/
def autoFitText (probe : Nat → Bool) (p : FitParams) : ℚ × Nat :=
  let base := jsOr p.baseFontSize 12
  let maxF := jsOr p.maxFontSize 72
  let s1 := shrinkLoop probe maxIterations base 0
  growLoop probe maxF maxIterations s1.1 s1.2

/-- Size bounds of the shrink phase: the size is multiplied by 0.95 at most
fuel times and never increased. -/
theorem shrinkLoop_bounds (probe : Nat → Bool) :
    ∀ (fuel : Nat) (s : ℚ) (c : Nat), 0 ≤ s →
      s * (19/20) ^ fuel ≤ (shrinkLoop probe fuel s c).1 ∧
        (shrinkLoop probe fuel s c).1 ≤ s := by
  intro fuel
  induction fuel with
  | zero => intro s c hs; simp [shrinkLoop]
  | succ f ih =>
    intro s c hs
    by_cases hp : probe c
    · have hs' : (0:ℚ) ≤ s * (19/20) := by positivity
      have h := ih (s * (19/20)) (c + 1) hs'
      simp only [shrinkLoop, if_pos hp]
      constructor
      · calc s * (19/20) ^ (f + 1) = s * (19/20) * (19/20) ^ f := by ring
          _ ≤ _ := h.1
      · calc (shrinkLoop probe f (s * (19/20)) (c + 1)).1 ≤ s * (19/20) := h.2
          _ ≤ s := by nlinarith
    · simp only [shrinkLoop, if_neg hp]
      have hpow : (19/20 : ℚ) ^ (f + 1) ≤ 1 := pow_le_one₀ (by norm_num) (by norm_num)
      exact ⟨by nlinarith, le_refl s⟩

/-- Lower size bound of the grow phase: the size can drop below its entry
value only by the single corrective *0.95 step after a growth step. -/
theorem growLoop_lower (probe : Nat → Bool) (m : ℚ) :
    ∀ (fuel : Nat) (s : ℚ) (c : Nat), 0 ≤ s →
      s * (19/20) ≤ (growLoop probe m fuel s c).1 := by
  intro fuel
  induction fuel with
  | zero => intro s c hs; simp only [growLoop]; nlinarith
  | succ f ih =>
    intro s c hs
    by_cases hp : probe c
    · simp only [growLoop, if_pos hp]; nlinarith
    · by_cases hsm : s < m
      · by_cases hp2 : probe (c + 1)
        · simp only [growLoop, if_neg hp, if_pos hsm, if_pos hp2]; nlinarith
        · simp only [growLoop, if_neg hp, if_pos hsm, if_neg hp2]
          have hs' : (0:ℚ) ≤ s * (21/20) := by positivity
          have h := ih (s * (21/20)) (c + 2) hs'
          nlinarith
      · simp only [growLoop, if_neg hp, if_neg hsm]; nlinarith

/-- Upper size bound of the grow phase: a growth step is only taken from a
size strictly below maxFontSize, so the size never exceeds maxFontSize*1.05. -/
theorem growLoop_upper (probe : Nat → Bool) (m : ℚ) :
    ∀ (fuel : Nat) (s : ℚ) (c : Nat), 0 ≤ s → s ≤ m * (21/20) →
      (growLoop probe m fuel s c).1 ≤ m * (21/20) := by
  intro fuel
  induction fuel with
  | zero => intro s c hs hsm; simpa only [growLoop]
  | succ f ih =>
    intro s c hs hsm
    by_cases hp : probe c
    · simpa only [growLoop, if_pos hp]
    · by_cases hlt : s < m
      · by_cases hp2 : probe (c + 1)
        · simp only [growLoop, if_neg hp, if_pos hlt, if_pos hp2]; nlinarith
        · simp only [growLoop, if_neg hp, if_pos hlt, if_neg hp2]
          have hs' : (0:ℚ) ≤ s * (21/20) := by positivity
          exact ih (s * (21/20)) (c + 2) hs' (by nlinarith)
      · simpa only [growLoop, if_neg hp, if_neg hlt]

/-- The shrink phase reads the probe at most fuel + 1 times. -/
theorem shrinkLoop_calls (probe : Nat → Bool) :
    ∀ (fuel : Nat) (s : ℚ) (c : Nat), (shrinkLoop probe fuel s c).2 ≤ c + fuel + 1 := by
  intro fuel
  induction fuel with
  | zero => intro s c; simp [shrinkLoop]
  | succ f ih =>
    intro s c
    by_cases hp : probe c
    · simp only [shrinkLoop, if_pos hp]
      calc (shrinkLoop probe f (s * (19/20)) (c + 1)).2 ≤ c + 1 + f + 1 := ih _ _
        _ = c + (f + 1) + 1 := by omega
    · simp only [shrinkLoop, if_neg hp]; omega

/-- The grow phase reads the probe at most 2 * fuel + 1 times. -/
theorem growLoop_calls (probe : Nat → Bool) (m : ℚ) :
    ∀ (fuel : Nat) (s : ℚ) (c : Nat), (growLoop probe m fuel s c).2 ≤ c + 2 * fuel + 1 := by
  intro fuel
  induction fuel with
  | zero => intro s c; simp [growLoop]
  | succ f ih =>
    intro s c
    by_cases hp : probe c
    · simp only [growLoop, if_pos hp]; omega
    · by_cases hlt : s < m
      · by_cases hp2 : probe (c + 1)
        · simp only [growLoop, if_neg hp, if_pos hlt, if_pos hp2]; omega
        · simp only [growLoop, if_neg hp, if_pos hlt, if_neg hp2]
          calc (growLoop probe m f (s * (21/20)) (c + 2)).2 ≤ c + 2 + 2 * f + 1 := ih _ _
            _ = c + 2 * (f + 1) + 1 := by omega
      · simp only [growLoop, if_neg hp, if_neg hlt]; omega

/-- C1, counterexample: with baseFontSize 12, maxFontSize 12.5 and a probe
that never reports overflow, autoFitText leaves size 12 * 1.05 = 12.6 on the
frame, which is above maxFontSize, so the final size lies outside the claimed
interval from baseFontSize * 0.95 ^ maxIterations up to maxFontSize. -/
theorem autoFitText_size_counterexample :
    12 * (19/20 : ℚ) ^ maxIterations ≤ (autoFitText (fun _ => false) ⟨some 12, some (25/2)⟩).1 ∧
      25/2 < (autoFitText (fun _ => false) ⟨some 12, some (25/2)⟩).1 := by
  norm_num [autoFitText, maxIterations, shrinkLoop, growLoop, jsOr]

/-- C1, amended: for every probe behavior, if baseFontSize = b and
maxFontSize = m are supplied with 0 < b and b ≤ m, the font size autoFitText
leaves on the frame lies in the closed interval from b * 0.95 ^ (maxIterations
+ 1) (one shrink budget plus the single corrective step of the grow phase) up
to m * 1.05 (a growth step starts strictly below m). -/
theorem autoFitText_size_bounds (probe : Nat → Bool) (p : FitParams) (b m : ℚ)
    (hb : p.baseFontSize = some b) (hm : p.maxFontSize = some m)
    (hb0 : 0 < b) (hbm : b ≤ m) :
    b * (19/20) ^ (maxIterations + 1) ≤ (autoFitText probe p).1 ∧
      (autoFitText probe p).1 ≤ m * (21/20) := by
  have hbne : b ≠ 0 := ne_of_gt hb0
  have hm0 : 0 < m := lt_of_lt_of_le hb0 hbm
  have hmne : m ≠ 0 := ne_of_gt hm0
  have hbase : jsOr p.baseFontSize 12 = b := by simp [jsOr, hb, hbne]
  have hmax : jsOr p.maxFontSize 72 = m := by simp [jsOr, hm, hmne]
  have hshr := shrinkLoop_bounds probe maxIterations b 0 (le_of_lt hb0)
  have hs1pos : 0 ≤ (shrinkLoop probe maxIterations b 0).1 := by
    have : (0:ℚ) ≤ b * (19/20) ^ maxIterations := by positivity
    linarith [hshr.1]
  constructor
  · have hlow := growLoop_lower probe m maxIterations
      (shrinkLoop probe maxIterations b 0).1 (shrinkLoop probe maxIterations b 0).2 hs1pos
    have : b * (19/20) ^ (maxIterations + 1) ≤ (shrinkLoop probe maxIterations b 0).1 * (19/20) := by
      have h1 := hshr.1
      calc b * (19/20) ^ (maxIterations + 1) = b * (19/20) ^ maxIterations * (19/20) := by ring
        _ ≤ (shrinkLoop probe maxIterations b 0).1 * (19/20) := by nlinarith
    simp only [autoFitText, hbase, hmax]
    linarith
  · have hup := growLoop_upper probe m maxIterations
      (shrinkLoop probe maxIterations b 0).1 (shrinkLoop probe maxIterations b 0).2 hs1pos
      (by nlinarith [hshr.2])
    simpa only [autoFitText, hbase, hmax] using hup

/-- Witness for the amended C1 theorem at baseFontSize 12, maxFontSize 72 and
a probe that never reports overflow. -/
theorem autoFitText_size_bounds_witness :
    12 * (19/20 : ℚ) ^ (maxIterations + 1) ≤ (autoFitText (fun _ => false) ⟨some 12, some 72⟩).1 ∧
      (autoFitText (fun _ => false) ⟨some 12, some 72⟩).1 ≤ 72 * (21/20) :=
  autoFitText_size_bounds (fun _ => false) ⟨some 12, some 72⟩ 12 72 rfl rfl
    (by norm_num) (by norm_num)

/-- C2, counterexample: with a probe answering true for its first 21 reads
(the whole shrink budget) and false afterwards, autoFitText reads the probe 62
times, which is more than 2 * maxIterations = 40: each while-condition
evaluation reads the probe once (21 reads in the shrink phase for 20
iterations) and the grow phase reads it twice per iteration (condition plus
the post-step overflow check) plus a final condition evaluation. -/
theorem autoFitText_probeCalls_counterexample :
    2 * maxIterations < (autoFitText (fun n => decide (n < 21)) ⟨some 12, some 72⟩).2 := by
  norm_num [autoFitText, maxIterations, shrinkLoop, growLoop, jsOr]

/-- C2, amended: autoFitText terminates for every behavior of the host
overflow probe (it is a total function of the probe stream), and it reads the
probe at most 3 * maxIterations + 2 = 62 times: at most maxIterations + 1
reads in the shrink phase and at most 2 * maxIterations + 1 in the grow
phase. -/
theorem autoFitText_probeCalls_le (probe : Nat → Bool) (p : FitParams) :
    (autoFitText probe p).2 ≤ 3 * maxIterations + 2 := by
  have h1 := shrinkLoop_calls probe maxIterations (jsOr p.baseFontSize 12) 0
  have h2 := growLoop_calls probe (jsOr p.maxFontSize 72) maxIterations
    (shrinkLoop probe maxIterations (jsOr p.baseFontSize 12) 0).1
    (shrinkLoop probe maxIterations (jsOr p.baseFontSize 12) 0).2
  simp only [autoFitText]
  omega

/-! ## TypographyAnalyzer of src/cep_extension/js/typographyAnalyzer.js -/

/-- The four font categories of TypographyAnalyzer.fontCategories. -/
inductive FontCategory where
  | serif
  | sansSerif
  | script
  | monospace
deriving DecidableEq

/-- Rendering of a category as the key string used in result messages. -/
def FontCategory.str : FontCategory → String
  | .serif => "serif"
  | .sansSerif => "sansSerif"
  | .script => "script"
  | .monospace => "monospace"

/-- Curated serif family names of this.fontCategories. -/
def serifFonts : List String := ["Times", "Georgia", "Minion", "Garamond", "Baskerville"]

/-- Curated sans-serif family names of this.fontCategories. -/
def sansSerifFonts : List String := ["Helvetica", "Arial", "Futura", "Avenir", "Proxima"]

/-- Curated script family names of this.fontCategories. -/
def scriptFonts : List String := ["Script", "Brush", "Handwriting", "Calligraphy"]

/-- Curated monospace family names of this.fontCategories. -/
def monospaceFonts : List String := ["Courier", "Monaco", "Consolas", "Menlo"]

/-- fonts.some(font => family.includes(font.toLowerCase())) of
categorizeFontFamily, with family already lower-cased. -/
def familyMatches (family : List Char) (fonts : List String) : Bool :=
  fonts.any fun f => charsContains family (lowerChars f)

/-- categorizeFontFamily of TypographyAnalyzer: curated lists are consulted in
the insertion order of this.fontCategories (serif, sansSerif, script,
monospace), then the fallback substring heuristics, else sansSerif. -/
def categorizeFontFamily (fontFamily : String) : FontCategory :=
  let family := lowerChars fontFamily
  if familyMatches family serifFonts then .serif
  else if familyMatches family sansSerifFonts then .sansSerif
  else if familyMatches family scriptFonts then .script
  else if familyMatches family monospaceFonts then .monospace
  else if charsContains family "serif".data then .serif
  else if charsContains family "sans".data || charsContains family "arial".data ||
      charsContains family "helvetica".data then .sansSerif
  else if charsContains family "mono".data || charsContains family "courier".data then .monospace
  else if charsContains family "script".data || charsContains family "italic".data then .script
  else .sansSerif

/-- TextElement fields consumed by the analyzers (ElementModel of the spec).
lineLength is absent when the host could not estimate it. -/
structure TextElement where
  family : String
  fontSize : ℚ
  lineHeight : ℚ
  characterSpacing : ℚ
  lineLength : Option ℚ
deriving DecidableEq

/-- AnalysisResult type tags. -/
inductive ResType where
  | success
  | info
  | warning
  | error
deriving DecidableEq

/-- AnalysisResult as produced by the analyzers. -/
structure AnalysisResult where
  type : ResType
  category : String
  message : String
  suggestions : List String
deriving DecidableEq

/-- JavaScript [...new Set(list)]: distinct values in first-occurrence
order. -/
def jsSetDedup {α : Type} [DecidableEq α] (l : List α) : List α :=
  l.foldl (fun acc a => if a ∈ acc then acc else acc ++ [a]) []

/-- analyzeFontPairing of TypographyAnalyzer. -/
def analyzeFontPairing (elements : List TextElement) : Option AnalysisResult :=
  let fonts := jsSetDedup (elements.map (·.family))
  if fonts.length < 2 then none
  else
    let categories := fonts.map categorizeFontFamily
    let uniqueCategories := jsSetDedup categories
    if uniqueCategories.length = 1 then
      some { type := .warning, category := "font-pairing",
             message := "All fonts are from the same category (" ++
               (uniqueCategories.headD .serif).str ++
               "). Consider adding contrast with a different font category.",
             suggestions := ["Try pairing serif with sans-serif fonts",
               "Use different weights within the same font family",
               "Consider a script or display font for headings"] }
    else if FontCategory.script ∈ categories ∧
        1 < (categories.filter fun c => c == FontCategory.script).length then
      some { type := .error, category := "font-pairing",
             message := "Multiple script fonts detected. This can create visual chaos and poor readability.",
             suggestions := ["Use only one script font per design",
               "Pair script fonts with simple sans-serif or serif fonts",
               "Reserve script fonts for headings or accents only"] }
    else
      some { type := .success, category := "font-pairing",
             message := "Good font variety detected: " ++
               String.intercalate ", " (uniqueCategories.map (·.str)) ++
               ". This creates nice typographic contrast.",
             suggestions := ["Ensure sufficient size difference between font pairs",
               "Test readability at final output size"] }

/-- this.readabilityRules of TypographyAnalyzer. -/
structure ReadabilityRules where
  minFontSize : ℚ
  maxFontSize : ℚ
  optimalLineHeight : ℚ
  minLineHeight : ℚ
  maxLineHeight : ℚ
  optimalLineLength : ℚ
  minLineLength : ℚ
  maxLineLength : ℚ

/-- The fixed thresholds set in the TypographyAnalyzer constructor. -/
def readabilityRules : ReadabilityRules :=
  { minFontSize := 9, maxFontSize := 72, optimalLineHeight := 7/5,
    minLineHeight := 6/5, maxLineHeight := 9/5, optimalLineLength := 60,
    minLineLength := 45, maxLineLength := 75 }
/-- Font-size check of analyzeReadability: the issue/suggestion pair pushed
by the first if/else-if group. -/
def fontSizeIssue (e : TextElement) : List String × List String :=
  let r := readabilityRules
  if e.fontSize < r.minFontSize then
    (["Font size " ++ toString e.fontSize ++ "pt is too small"],
     ["Increase font size to at least " ++ toString r.minFontSize ++ "pt"])
  else if e.fontSize > r.maxFontSize then
    (["Font size " ++ toString e.fontSize ++ "pt may be too large for body text"],
     ["Consider reducing font size for better readability"])
  else ([], [])

/-- Line-height check of analyzeReadability. -/
def lineHeightIssue (e : TextElement) : List String × List String :=
  let r := readabilityRules
  if e.lineHeight < r.minLineHeight then
    (["Line height " ++ toString e.lineHeight ++ " is too tight"],
     ["Increase line height to at least " ++ toString r.minLineHeight])
  else if e.lineHeight > r.maxLineHeight then
    (["Line height " ++ toString e.lineHeight ++ " is too loose"],
     ["Reduce line height to around " ++ toString r.optimalLineHeight])
  else ([], [])

/-- Line-length check of analyzeReadability; it runs only when the property
is truthy (present and nonzero). -/
def lineLengthIssue (e : TextElement) : List String × List String :=
  let r := readabilityRules
  match e.lineLength with
  | none => ([], [])
  | some ll =>
    if ll = 0 then ([], [])
    else if ll < r.minLineLength then
      (["Line length " ++ toString ll ++ " characters is too short"],
       ["Increase column width or font size"])
    else if ll > r.maxLineLength then
      (["Line length " ++ toString ll ++ " characters is too long"],
       ["Reduce column width or use multi-column layout"])
    else ([], [])

/-- Character-spacing check of analyzeReadability; it runs only when
characterSpacing is truthy. -/
def spacingIssue (e : TextElement) : List String × List String :=
  if e.characterSpacing ≠ 0 ∧ 1/10 < |e.characterSpacing| then
    (["Extreme character spacing detected"],
     ["Reduce character spacing for better readability"])
  else ([], [])

/-- The issue and suggestion strings pushed for one element by the four
checks of analyzeReadability: the four if-groups of the source append to the
issues and suggestions arrays independently, in source order. -/
def elementIssues (e : TextElement) : List String × List String :=
  ((fontSizeIssue e).1 ++ (lineHeightIssue e).1 ++ (lineLengthIssue e).1 ++ (spacingIssue e).1,
   (fontSizeIssue e).2 ++ (lineHeightIssue e).2 ++ (lineLengthIssue e).2 ++ (spacingIssue e).2)

/-- The single aggregated warning result pushed for an element with issues;
the message carries the 1-based element index. -/
def readabilityWarning (index : Nat) (e : TextElement) : AnalysisResult :=
  { type := .warning, category := "readability",
    message := "Element " ++ toString (index + 1) ++ ": " ++
      String.intercalate ", " (elementIssues e).1,
    suggestions := (elementIssues e).2 }

/-- analyzeReadability of TypographyAnalyzer: elements.forEach pushing one
warning per element with a nonempty issue list. -/
def analyzeReadability (elements : List TextElement) : List AnalysisResult :=
  elements.enum.foldl
    (fun results q =>
      if 0 < (elementIssues q.2).1.length then results ++ [readabilityWarning q.1 q.2]
      else results)
    []

/-- analyzeHierarchy of TypographyAnalyzer: sort the font sizes descending,
take consecutive ratios, flag ratios below 1.15 or above 3.0. -/
def analyzeHierarchy (elements : List TextElement) : Option AnalysisResult :=
  if elements.length < 2 then none
  else
    let fontSizes := List.insertionSort (fun a b : ℚ => a ≥ b) (elements.map (·.fontSize))
    let ratios := (fontSizes.zip fontSizes.tail).map fun q => q.1 / q.2
    let poorRatios := ratios.filter fun r => decide (r < 23/20) || decide (3 < r)
    if 0 < poorRatios.length then
      some { type := .info, category := "hierarchy",
             message := "Typography hierarchy could be improved with better size relationships.",
             suggestions := ["Use consistent scale ratios (1.25x, 1.5x, 2x)",
               "Ensure minimum 1.2x difference between hierarchy levels",
               "Consider using weight and color for additional hierarchy"] }
    else
      some { type := .success, category := "hierarchy",
             message := "Good typography hierarchy detected with appropriate size relationships.",
             suggestions := ["Maintain consistent hierarchy across all pages",
               "Test hierarchy effectiveness with actual content"] }

/-- Two distinct families that both map to the script category. -/
def elBrush : TextElement :=
  { family := "Brush Alpha", fontSize := 24, lineHeight := 7/5,
    characterSpacing := 0, lineLength := none }

/-- Second script-mapped family, distinct from elBrush. -/
def elScript : TextElement :=
  { family := "Royal Script", fontSize := 12, lineHeight := 7/5,
    characterSpacing := 0, lineLength := none }

/-- A sans-serif element. -/
def elArial : TextElement :=
  { family := "Arial", fontSize := 12, lineHeight := 7/5,
    characterSpacing := 0, lineLength := none }

/-- C3, counterexample: a sequence with two elements whose families both map
to script (two distinct script families, no other category) yields a warning,
not the claimed error: the all-same-category check of analyzeFontPairing runs
first. (With two elements sharing one script family the analyzer returns no
result at all, since only one distinct font remains.) -/
theorem analyzeFontPairing_script_counterexample :
    (analyzeFontPairing [elBrush, elScript]).map AnalysisResult.type = some ResType.warning ∧
      some ResType.warning ≠ some ResType.error := by
  exact ⟨by decide, by decide⟩

/-- C3, amended: if at least two distinct families of the sequence map to
script and the distinct families do not all map to one single category, then
analyzeFontPairing returns a result of type error, regardless of which other
categories are present. -/
theorem analyzeFontPairing_script_error (elements : List TextElement)
    (h2 : 2 ≤ (((jsSetDedup (elements.map (·.family))).map categorizeFontFamily).filter
        fun c => c == FontCategory.script).length)
    (hne : (jsSetDedup ((jsSetDedup (elements.map (·.family))).map categorizeFontFamily)).length ≠ 1) :
    ∃ r, analyzeFontPairing elements = some r ∧ r.type = ResType.error := by
  have hlenc : ((jsSetDedup (elements.map (·.family))).map categorizeFontFamily).length
      = (jsSetDedup (elements.map (·.family))).length := List.length_map _ _
  have hfle := List.length_filter_le (fun c => c == FontCategory.script)
    ((jsSetDedup (elements.map (·.family))).map categorizeFontFamily)
  have hnlt : ¬ ((jsSetDedup (elements.map (·.family))).length < 2) := by omega
  have hmem : FontCategory.script ∈ (jsSetDedup (elements.map (·.family))).map categorizeFontFamily := by
    have hpos : 0 < (((jsSetDedup (elements.map (·.family))).map categorizeFontFamily).filter
        fun c => c == FontCategory.script).length := by omega
    obtain ⟨c, hc⟩ := List.exists_mem_of_length_pos hpos
    have := List.mem_filter.mp hc
    have hcs : c = FontCategory.script := by
      have := this.2
      simpa using this
    exact hcs ▸ this.1
  have hres : analyzeFontPairing elements
      = some { type := ResType.error, category := "font-pairing",
               message := "Multiple script fonts detected. This can create visual chaos and poor readability.",
               suggestions := ["Use only one script font per design",
                 "Pair script fonts with simple sans-serif or serif fonts",
                 "Reserve script fonts for headings or accents only"] } := by
    simp only [analyzeFontPairing]
    rw [if_neg hnlt, if_neg hne, if_pos ⟨hmem, by omega⟩]
  exact ⟨_, hres, rfl⟩

/-- Witness for the amended C3 theorem: two script families plus a sans-serif
family produce an error result. -/
theorem analyzeFontPairing_script_error_witness :
    ∃ r, analyzeFontPairing [elBrush, elScript, elArial] = some r ∧ r.type = ResType.error :=
  analyzeFontPairing_script_error [elBrush, elScript, elArial] (by decide) (by decide)

/-- A conditional-push forEach loop is a filter followed by a map. -/
theorem foldl_push_eq {α β : Type} (p : α → Prop) [DecidablePred p] (g : α → β) :
    ∀ (l : List α) (acc : List β),
      l.foldl (fun res x => if p x then res ++ [g x] else res) acc
        = acc ++ (l.filter fun x => decide (p x)).map g := by
  intro l
  induction l with
  | nil => intro acc; simp
  | cons x xs ih =>
    intro acc
    by_cases hc : p x
    · simp [List.filter_cons, hc, ih]
    · simp [List.filter_cons, hc, ih]

/-- The scenario element of C6: font size 6pt, line height 1.0. -/
def elTiny : TextElement :=
  { family := "Arial", fontSize := 6, lineHeight := 1,
    characterSpacing := 0, lineLength := none }

/-- The font-size check pushes as many suggestions as issues, and pushes an
issue exactly when fontSize is outside 9..72. -/
theorem fontSizeIssue_spec (e : TextElement) :
    (fontSizeIssue e).2.length = (fontSizeIssue e).1.length ∧
      (0 < (fontSizeIssue e).1.length ↔ (e.fontSize < 9 ∨ 72 < e.fontSize)) := by
  simp only [fontSizeIssue, readabilityRules]
  split_ifs with h1 h2
  · exact ⟨rfl, by simp [h1]⟩
  · exact ⟨rfl, by simp [h1, h2]⟩
  · exact ⟨rfl, by simp [h1, h2]⟩

/-- The line-height check pushes as many suggestions as issues, and pushes an
issue exactly when lineHeight is outside 1.2..1.8. -/
theorem lineHeightIssue_spec (e : TextElement) :
    (lineHeightIssue e).2.length = (lineHeightIssue e).1.length ∧
      (0 < (lineHeightIssue e).1.length ↔ (e.lineHeight < 6/5 ∨ 9/5 < e.lineHeight)) := by
  simp only [lineHeightIssue, readabilityRules]
  split_ifs with h1 h2
  · exact ⟨rfl, by simp [h1]⟩
  · exact ⟨rfl, by simp [h1, h2]⟩
  · exact ⟨rfl, by simp [h1, h2]⟩

/-- The line-length check pushes as many suggestions as issues; when
lineLength is not the degenerate some 0, it pushes an issue exactly when a
present lineLength is outside 45..75. -/
theorem lineLengthIssue_spec (e : TextElement) (hll : e.lineLength ≠ some 0) :
    (lineLengthIssue e).2.length = (lineLengthIssue e).1.length ∧
      (0 < (lineLengthIssue e).1.length ↔
        ∃ x, e.lineLength = some x ∧ (x < 45 ∨ 75 < x)) := by
  rcases hE : e.lineLength with _ | ll
  · simp [lineLengthIssue, hE]
  · have h0 : ll ≠ 0 := by rintro rfl; exact hll hE
    simp only [lineLengthIssue, hE, readabilityRules]
    rw [if_neg h0]
    split_ifs with h1 h2
    · exact ⟨rfl, by simp [hE, h1]⟩
    · exact ⟨rfl, by simp [hE, h1, h2]⟩
    · exact ⟨rfl, by simp [hE, h1, h2]⟩

/-- The character-spacing check pushes as many suggestions as issues, and
pushes an issue exactly when the absolute character spacing exceeds 0.1. -/
theorem spacingIssue_spec (e : TextElement) :
    (spacingIssue e).2.length = (spacingIssue e).1.length ∧
      (0 < (spacingIssue e).1.length ↔ 1/10 < |e.characterSpacing|) := by
  simp only [spacingIssue]
  split_ifs with h
  · exact ⟨rfl, iff_of_true (by simp) h.2⟩
  · refine ⟨rfl, ?_⟩
    simp only [List.length_nil, lt_irrefl, false_iff]
    intro habs
    have hne : e.characterSpacing ≠ 0 := by
      intro hz
      rw [hz, abs_zero] at habs
      norm_num at habs
    exact h ⟨hne, habs⟩

/-- An element gets as many suggestions as issues. -/
theorem elementIssues_pair (e : TextElement) :
    (elementIssues e).2.length = (elementIssues e).1.length := by
  have h1 := (fontSizeIssue_spec e).1
  have h2 := (lineHeightIssue_spec e).1
  have h3 : (lineLengthIssue e).2.length = (lineLengthIssue e).1.length := by
    rcases hE : e.lineLength with _ | ll
    · simp [lineLengthIssue, hE]
    · simp only [lineLengthIssue, hE, readabilityRules]
      split_ifs <;> rfl
  have h4 := (spacingIssue_spec e).1
  simp only [elementIssues, List.length_append]
  omega

/-- An element has at least one issue exactly when one of the four
readability checks fails. -/
theorem elementIssues_pos (e : TextElement) (hll : e.lineLength ≠ some 0) :
    0 < (elementIssues e).1.length ↔
      (e.fontSize < 9 ∨ 72 < e.fontSize ∨ e.lineHeight < 6/5 ∨ 9/5 < e.lineHeight ∨
        (∃ x, e.lineLength = some x ∧ (x < 45 ∨ 75 < x)) ∨
        1/10 < |e.characterSpacing|) := by
  obtain ⟨-, hf⟩ := fontSizeIssue_spec e
  obtain ⟨-, hh⟩ := lineHeightIssue_spec e
  obtain ⟨-, hl⟩ := lineLengthIssue_spec e hll
  obtain ⟨-, hs⟩ := spacingIssue_spec e
  simp only [elementIssues, List.length_append]
  constructor
  · intro h
    have hone : 0 < (fontSizeIssue e).1.length ∨ 0 < (lineHeightIssue e).1.length ∨
        0 < (lineLengthIssue e).1.length ∨ 0 < (spacingIssue e).1.length := by omega
    rcases hone with h | h | h | h
    · rcases hf.mp h with h | h
      · exact Or.inl h
      · exact Or.inr (Or.inl h)
    · rcases hh.mp h with h | h
      · exact Or.inr (Or.inr (Or.inl h))
      · exact Or.inr (Or.inr (Or.inr (Or.inl h)))
    · exact Or.inr (Or.inr (Or.inr (Or.inr (Or.inl (hl.mp h)))))
    · exact Or.inr (Or.inr (Or.inr (Or.inr (Or.inr (hs.mp h)))))
  · intro h
    rcases h with h | h | h | h | h | h
    · have := hf.mpr (Or.inl h); omega
    · have := hf.mpr (Or.inr h); omega
    · have := hh.mpr (Or.inl h); omega
    · have := hh.mpr (Or.inr h); omega
    · have := hl.mpr h; omega
    · have := hs.mpr h; omega

/-- C6: analyzeReadability emits exactly one warning per element with at
least one failed check, in element order (the filter/map equation); an
element fails some check exactly when fontSize is outside 9..72, lineHeight
outside 1.2..1.8, a present lineLength outside 45..75, or absolute character
spacing above 0.1; each warning aggregates the element's issues with one
suggestion per issue and a 1-based element index in its message; and the
scenario element with fontSize 6 and lineHeight 1.0 yields exactly one
warning with two issues and two suggestions. -/
theorem analyzeReadability_warnings (elements : List TextElement)
    (h0 : ∀ e ∈ elements, e.lineLength ≠ some 0) :
    (analyzeReadability elements
        = (elements.enum.filter fun q => decide (0 < (elementIssues q.2).1.length)).map
            fun q => readabilityWarning q.1 q.2)
      ∧ (∀ e ∈ elements, (0 < (elementIssues e).1.length ↔
          (e.fontSize < 9 ∨ 72 < e.fontSize ∨ e.lineHeight < 6/5 ∨ 9/5 < e.lineHeight ∨
            (∃ x, e.lineLength = some x ∧ (x < 45 ∨ 75 < x)) ∨ 1/10 < |e.characterSpacing|)))
      ∧ (∀ (i : Nat) (e : TextElement),
          (readabilityWarning i e).type = ResType.warning ∧
          (readabilityWarning i e).suggestions.length = (elementIssues e).1.length ∧
          (readabilityWarning i e).message
            = "Element " ++ toString (i + 1) ++ ": " ++
                String.intercalate ", " (elementIssues e).1)
      ∧ analyzeReadability [elTiny] = [readabilityWarning 0 elTiny]
      ∧ (elementIssues elTiny).1.length = 2
      ∧ (elementIssues elTiny).2.length = 2 := by
  have hTiny : (elementIssues elTiny).1.length = 2 ∧ (elementIssues elTiny).2.length = 2 := by
    norm_num [elementIssues, fontSizeIssue, lineHeightIssue, lineLengthIssue,
      spacingIssue, readabilityRules, elTiny]
  refine ⟨foldl_push_eq _ _ elements.enum [], ?_, ?_, ?_, hTiny.1, hTiny.2⟩
  · intro e he
    exact elementIssues_pos e (h0 e he)
  · intro i e
    exact ⟨rfl, elementIssues_pair e, rfl⟩
  · have hcond : (0 < (elementIssues elTiny).1.length) := by
      rw [hTiny.1]; norm_num
    simp [analyzeReadability, List.enum, List.enumFrom, hcond]

/-- Witness for the C6 theorem at the scenario input. -/
theorem analyzeReadability_warnings_witness :
    analyzeReadability [elTiny] = [readabilityWarning 0 elTiny] ∧
      (elementIssues elTiny).1.length = 2 ∧ (elementIssues elTiny).2.length = 2 := by
  have h := analyzeReadability_warnings [elTiny]
    (by intro e he; simp only [List.mem_singleton] at he; simp [he, elTiny])
  exact ⟨h.2.2.2.1, h.2.2.2.2.1, h.2.2.2.2.2⟩

/-- C7, counterexample: a single element (vacuously a sorted-descending
sequence whose every consecutive ratio lies in 1.15..3.0) produces no result
at all — analyzeHierarchy needs at least two elements — so it does not return
the claimed success result. -/
theorem analyzeHierarchy_single_counterexample :
    analyzeHierarchy [elArial] = none ∧
      ¬ ∃ r, analyzeHierarchy [elArial] = some r ∧ r.type = ResType.success := by
  refine ⟨rfl, ?_⟩
  rintro ⟨r, hr, -⟩
  exact Option.noConfusion (show (none : Option AnalysisResult) = some r from hr)

/-- C7 (amended): for sequences of at least two elements with positive font
sizes listed in descending order, analyzeHierarchy returns a success result
when every consecutive ratio lies in 1.15..3.0, and an info result when some
consecutive ratio is below 1.15 or above 3.0. -/
theorem analyzeHierarchy_ratio_results (elements : List TextElement)
    (h2 : 2 ≤ elements.length)
    (hpos : ∀ e ∈ elements, 0 < e.fontSize)
    (hsorted : List.Sorted (fun a b : ℚ => a ≥ b) (elements.map fun e => e.fontSize)) :
    ((∀ p ∈ (elements.map fun e => e.fontSize).zip (elements.map fun e => e.fontSize).tail,
        23/20 ≤ p.1 / p.2 ∧ p.1 / p.2 ≤ 3) →
      ∃ r, analyzeHierarchy elements = some r ∧ r.type = ResType.success) ∧
    ((∃ p ∈ (elements.map fun e => e.fontSize).zip (elements.map fun e => e.fontSize).tail,
        p.1 / p.2 < 23/20 ∨ 3 < p.1 / p.2) →
      ∃ r, analyzeHierarchy elements = some r ∧ r.type = ResType.info) := by
  have hnlt : ¬ (elements.length < 2) := by omega
  have hss : List.insertionSort (fun a b : ℚ => a ≥ b) (elements.map fun e => e.fontSize)
      = elements.map fun e => e.fontSize := List.Sorted.insertionSort_eq hsorted
  constructor
  · intro hall
    have hfilter : (((elements.map fun e => e.fontSize).zip
          (elements.map fun e => e.fontSize).tail).map fun q => q.1 / q.2).filter
            (fun r => decide (r < 23/20) || decide (3 < r)) = [] := by
      rw [List.filter_eq_nil_iff]
      intro a ha
      obtain ⟨p, hp, rfl⟩ := List.mem_map.mp ha
      have hb := hall p hp
      simp only [Bool.or_eq_true, decide_eq_true_eq, not_or]
      constructor
      · intro hcon; linarith [hb.1]
      · intro hcon; linarith [hb.2]
    have hres : analyzeHierarchy elements
        = some { type := ResType.success, category := "hierarchy",
                 message := "Good typography hierarchy detected with appropriate size relationships.",
                 suggestions := ["Maintain consistent hierarchy across all pages",
                   "Test hierarchy effectiveness with actual content"] } := by
      simp only [analyzeHierarchy]
      rw [if_neg hnlt, hss, hfilter]
      simp
    exact ⟨_, hres, rfl⟩
  · rintro ⟨p, hp, hbad⟩
    have hmem : p.1 / p.2 ∈ ((elements.map fun e => e.fontSize).zip
        (elements.map fun e => e.fontSize).tail).map fun q => q.1 / q.2 :=
      List.mem_map.mpr ⟨p, hp, rfl⟩
    have hfmem : p.1 / p.2 ∈ (((elements.map fun e => e.fontSize).zip
          (elements.map fun e => e.fontSize).tail).map fun q => q.1 / q.2).filter
            (fun r => decide (r < 23/20) || decide (3 < r)) := by
      rw [List.mem_filter]
      refine ⟨hmem, ?_⟩
      simp only [Bool.or_eq_true, decide_eq_true_eq]
      exact hbad
    have hpos2 : 0 < ((((elements.map fun e => e.fontSize).zip
          (elements.map fun e => e.fontSize).tail).map fun q => q.1 / q.2).filter
            (fun r => decide (r < 23/20) || decide (3 < r))).length := by
      rw [List.length_pos]
      intro hnil
      rw [hnil] at hfmem
      exact List.not_mem_nil _ hfmem
    have hres : analyzeHierarchy elements
        = some { type := ResType.info, category := "hierarchy",
                 message := "Typography hierarchy could be improved with better size relationships.",
                 suggestions := ["Use consistent scale ratios (1.25x, 1.5x, 2x)",
                   "Ensure minimum 1.2x difference between hierarchy levels",
                   "Consider using weight and color for additional hierarchy"] } := by
      simp only [analyzeHierarchy]
      rw [if_neg hnlt, hss, if_pos hpos2]
    exact ⟨_, hres, rfl⟩

/-- Elements with descending sizes 24, 16, 12. -/
def elH1 : TextElement :=
  { family := "Georgia", fontSize := 24, lineHeight := 7/5,
    characterSpacing := 0, lineLength := none }

/-- Middle element of the C7 witness. -/
def elH2 : TextElement :=
  { family := "Helvetica", fontSize := 16, lineHeight := 7/5,
    characterSpacing := 0, lineLength := none }

/-- Smallest element of the C7 witness. -/
def elH3 : TextElement :=
  { family := "Courier", fontSize := 12, lineHeight := 7/5,
    characterSpacing := 0, lineLength := none }

/-- Witness for the amended C7 theorem: sizes 24, 16, 12 have consecutive
ratios 1.5 and 4/3, both inside 1.15..3.0, so the analyzer reports success. -/
theorem analyzeHierarchy_ratio_results_witness :
    ∃ r, analyzeHierarchy [elH1, elH2, elH3] = some r ∧ r.type = ResType.success := by
  have h := analyzeHierarchy_ratio_results [elH1, elH2, elH3] (by norm_num)
    (by intro e he; fin_cases he <;> norm_num [elH1, elH2, elH3])
    (by norm_num [elH1, elH2, elH3, List.sorted_cons])
  refine h.1 ?_
  intro p hp
  norm_num [elH1, elH2, elH3] at hp
  rcases hp with hp | hp <;> rw [hp] <;> norm_num

/-! ## ExtendScript host script: src/unnamed/part_002 -/

/-- Character and paragraph attributes of a text frame's textRange as read
and written by the host script. leading can become NaN (see
applyFormattingRule), so it is a JNum. -/
structure TRange where
  size : ℚ
  textFont : String
  leading : JNum
  tracking : ℚ
  fillColor : JNum × JNum × JNum
  contents : String
  autoKernOptical : Bool
  justification : String
deriving DecidableEq

/-- A member of the host selection; typename distinguishes TextFrames from
other art objects. -/
structure SFrame where
  typename : String
  tr : TRange
deriving DecidableEq

/-- FormatRule consumed by batchFormatText. -/
structure FormatRule where
  name : Option String
  selector : String
  headingThreshold : Option ℚ
  text : Option String
  fontFamily : Option String
  fontSize : Option ℚ
  lineHeight : Option ℚ
  characterSpacing : Option ℚ
  color : Option String
deriving DecidableEq

/-- shouldApplyRule of src/unnamed/part_002: all / heading / body / contains,
any other selector matches nothing. A missing rule.text is coerced to the
string undefined by JavaScript indexOf. -/
def shouldApplyRule (textFrame : SFrame) (rule : FormatRule) : Bool :=
  match rule.selector with
  | "all" => true
  | "heading" => decide (textFrame.tr.size > jsOr rule.headingThreshold 18)
  | "body" => decide (textFrame.tr.size ≤ jsOr rule.headingThreshold 18)
  | "contains" => charsContains textFrame.tr.contents.data (rule.text.getD "undefined").data
  | _ => false

/-- Value of a hexadecimal digit character, if it is one. -/
def hexDigitVal (c : Char) : Option Nat :=
  if c.isDigit then some (c.toNat - 48)
  else if 97 ≤ c.toNat ∧ c.toNat ≤ 102 then some (c.toNat - 87)
  else if 65 ≤ c.toNat ∧ c.toNat ≤ 70 then some (c.toNat - 55)
  else none

/-- parseInt(s, 16): parse the maximal hexadecimal prefix, NaN when there is
none. -/
def parseIntHex (s : List Char) : JNum :=
  let ds := (s.takeWhile fun c => (hexDigitVal c).isSome).filterMap hexDigitVal
  match ds with
  | [] => JNum.nan
  | _ => JNum.val ((ds.foldl (fun acc d => 16 * acc + d) 0 : ℕ) : ℚ)

/-- substring(a, b) of a JavaScript string (a clamping slice). -/
def jsSubstring (s : String) (a b : Nat) : List Char :=
  (s.data.drop a).take (b - a)

/-- The RGBColor built by applyFormattingRule from a #rrggbb color string. -/
def parseColor (c : String) : JNum × JNum × JNum :=
  (parseIntHex (jsSubstring c 1 3), parseIntHex (jsSubstring c 3 5),
   parseIntHex (jsSubstring c 5 7))

/-- applyFormattingRule of src/unnamed/part_002, with the host font catalog
as the parameter resolveFont: app.textFonts.getByName throws exactly when
resolveFont is false, and the catch swallows the failure so the remaining
properties are still applied. Each if (rule.prop) guard is JavaScript
truthiness: undefined, 0 and the empty string are falsy. The leading write
multiplies rule.fontSize (possibly undefined, giving NaN) by rule.lineHeight. -/
def applyFormattingRule (resolveFont : String → Bool) (tr : TRange) (rule : FormatRule) : TRange :=
  let tr :=
    match rule.fontFamily with
    | some f => if f = "" then tr else if resolveFont f then { tr with textFont := f } else tr
    | none => tr
  let tr :=
    match rule.fontSize with
    | some s => if s = 0 then tr else { tr with size := s }
    | none => tr
  let tr :=
    match rule.lineHeight with
    | some lh => if lh = 0 then tr else { tr with leading := jsMulOpt rule.fontSize lh }
    | none => tr
  let tr :=
    match rule.characterSpacing with
    | some cs => if cs = 0 then tr else { tr with tracking := cs }
    | none => tr
  match rule.color with
  | some c => if c = "" then tr else { tr with fillColor := parseColor c }
  | none => tr

/-- Rule identifier recorded by batchFormatText: rule.name || rule_j. -/
def ruleIdent (rule : FormatRule) (j : Nat) : String :=
  jsOrS rule.name ("rule_" ++ toString j)

/-- The inner loop of batchFormatText for one text frame: each rule is tested
against the current (already partially formatted) frame and applied in
order. -/
def applyRulesToFrame (resolveFont : String → Bool) (f : SFrame) (rules : List FormatRule) :
    SFrame × List String :=
  rules.enum.foldl
    (fun acc q =>
      if shouldApplyRule acc.1 q.2 then
        ({ acc.1 with tr := applyFormattingRule resolveFont acc.1.tr q.2 },
         acc.2 ++ [ruleIdent q.2 q.1])
      else acc)
    (f, [])

/-- TypographyAgent.batchFormatText: the loop body never throws (an unknown
selector simply matches nothing and font failures are swallowed inside
applyFormattingRule), so the catch branch is unreachable and the call always
returns the success payload with the applied rule identifiers per frame. -/
def batchFormatText (textFrames : List SFrame) (rules : List FormatRule)
    (resolveFont : String → Bool) : Except String (List (SFrame × List String)) :=
  Except.ok (textFrames.map fun f => applyRulesToFrame resolveFont f rules)

/-- Parameters consumed by the four applyXxxFix helpers. -/
structure FixParams where
  opticalKerning : Bool
  kerningPairs : Bool
  tracking : Option ℚ
  scaleRatio : Option ℚ
  baseSize : Option ℚ
  lineHeight : Option ℚ
  characterSpacing : Option ℚ
  alignment : Option String

/-- applyKerningFix of src/unnamed/part_002 (frame mutations only). -/
def applyKerningFix (selection : List SFrame) (p : FixParams) : List SFrame :=
  selection.map fun f =>
    if f.typename = "TextFrame" then
      let tr := f.tr
      let tr := if p.opticalKerning then { tr with autoKernOptical := true } else tr
      let tr := if p.kerningPairs then { tr with tracking := jsOr p.tracking 0 } else tr
      { f with tr := tr }
    else f

/-- applyReadabilityFix of src/unnamed/part_002 (frame mutations only). -/
def applyReadabilityFix (selection : List SFrame) (p : FixParams) : List SFrame :=
  selection.map fun f =>
    if f.typename = "TextFrame" then
      let tr := f.tr
      let tr :=
        match p.lineHeight with
        | some lh => if lh = 0 then tr else { tr with leading := JNum.val (tr.size * lh) }
        | none => tr
      let tr :=
        match p.characterSpacing with
        | some cs => if cs = 0 then tr else { tr with tracking := cs }
        | none => tr
      { f with tr := tr }
    else f

/-- applyAlignmentFix of src/unnamed/part_002 (frame mutations only): the
switch writes a justification only for the four known cases. -/
def applyAlignmentFix (selection : List SFrame) (p : FixParams) : List SFrame :=
  selection.map fun f =>
    if f.typename = "TextFrame" then
      match p.alignment with
      | some a =>
        if a = "left" ∨ a = "center" ∨ a = "right" ∨ a = "justify" then
          { f with tr := { f.tr with justification := a } }
        else f
      | none => f
    else f

/-- Per-frame result record pushed by applyHierarchyFix. -/
structure HierarchyResult where
  index : Nat
  oldSize : ℚ
  newSize : ℚ
deriving DecidableEq

/-- The TextFrame members of the selection with their original indices,
sorted by current font size descending with the stable host sort. -/
def hierarchySorted (selection : List SFrame) : List (Nat × SFrame) :=
  List.insertionSort (fun a b => a.2.tr.size ≥ b.2.tr.size)
    (selection.enum.filter fun q => decide (q.2.typename = "TextFrame"))

/-- The size applyHierarchyFix assigns to the rank-j frame among n:
parameters.baseSize ? baseSize * Math.pow(scaleRatio || 1.25, n - j - 1) :
current size. -/
def hierNewSize (p : FixParams) (n j : Nat) (cur : ℚ) : ℚ :=
  match p.baseSize with
  | some b => if b = 0 then cur else b * jsOr p.scaleRatio (5/4) ^ (n - j - 1)
  | none => cur

/-- applyHierarchyFix of src/unnamed/part_002: the result records, in rank
order, carrying each frame's original index and its old and new size. -/
def applyHierarchyFix (selection : List SFrame) (p : FixParams) : List HierarchyResult :=
  (hierarchySorted selection).enum.map fun q =>
    { index := q.2.1, oldSize := q.2.2.tr.size,
      newSize := hierNewSize p (hierarchySorted selection).length q.1 q.2.2.tr.size }

/-- The selection after applyHierarchyFix's in-place writes: frames are
distinct host objects and the loop writes each selected frame at most once,
so a frame's final size is the newSize recorded for its index. -/
def applyHierarchyFixSel (selection : List SFrame) (p : FixParams) : List SFrame :=
  selection.enum.map fun q =>
    match (applyHierarchyFix selection p).find? (fun h => h.index == q.1) with
    | some h => { q.2 with tr := { q.2.tr with size := h.newSize } }
    | none => q.2

/-- TypographyAgent.applyTypographyFix: dispatch on fixType; an unknown fix
type throws Unknown fix type which the catch turns into a failed result for
that single call, naming the offending identifier. -/
def applyTypographyFix (fixType : String) (selection : List SFrame) (p : FixParams) :
    Except String (List SFrame) :=
  match fixType with
  | "kerning" => Except.ok (applyKerningFix selection p)
  | "hierarchy" => Except.ok (applyHierarchyFixSel selection p)
  | "readability" => Except.ok (applyReadabilityFix selection p)
  | "alignment" => Except.ok (applyAlignmentFix selection p)
  | other => Except.error ("Unknown fix type: " ++ other)

/-- C10: a rule defining lineHeight but not fontSize writes NaN as the
frame's leading, because the source multiplies the undefined rule.fontSize —
not the element's current size — with rule.lineHeight. -/
theorem lineHeight_without_fontSize_nan (resolveFont : String → Bool) (tr : TRange)
    (rule : FormatRule) (lh : ℚ)
    (hlh : rule.lineHeight = some lh) (hlh0 : lh ≠ 0) (hfs : rule.fontSize = none) :
    (applyFormattingRule resolveFont tr rule).leading = JNum.nan := by
  obtain ⟨nm, sel, thr, txt, ff, fs, lhf, cs, col⟩ := rule
  simp only at hlh hfs
  subst hlh hfs
  rcases ff with _ | f <;> rcases cs with _ | k <;> rcases col with _ | c <;>
    simp [applyFormattingRule, jsMulOpt, hlh0] <;> split_ifs <;> simp

/-- Witness for the C10 theorem: a rule with lineHeight 1.5 and no fontSize
leaves NaN in the leading of a concrete frame. -/
theorem lineHeight_without_fontSize_nan_witness :
    (applyFormattingRule (fun _ => true)
        { size := 12, textFont := "Arial", leading := JNum.val 14, tracking := 0,
          fillColor := (JNum.val 0, JNum.val 0, JNum.val 0), contents := "hello",
          autoKernOptical := false, justification := "left" }
        { name := none, selector := "all", headingThreshold := none, text := none,
          fontFamily := none, fontSize := none, lineHeight := some (3/2),
          characterSpacing := none, color := none }).leading = JNum.nan :=
  lineHeight_without_fontSize_nan (fun _ => true) _ _ (3/2) rfl (by norm_num) rfl

/-- The C4 scenario rule: selector heading, headingThreshold 18, fontSize 24. -/
def ruleHeading24 : FormatRule :=
  { name := none, selector := "heading", headingThreshold := some 18, text := none,
    fontFamily := none, fontSize := some 24, lineHeight := none,
    characterSpacing := none, color := none }

/-- A 20pt text frame. -/
def frame20 : SFrame :=
  { typename := "TextFrame",
    tr := { size := 20, textFont := "Arial", leading := JNum.val 24, tracking := 0,
            fillColor := (JNum.val 0, JNum.val 0, JNum.val 0), contents := "Title",
            autoKernOptical := false, justification := "left" } }

/-- A 16pt text frame. -/
def frame16 : SFrame :=
  { typename := "TextFrame",
    tr := { size := 16, textFont := "Arial", leading := JNum.val 19, tracking := 0,
            fillColor := (JNum.val 0, JNum.val 0, JNum.val 0), contents := "Body",
            autoKernOptical := false, justification := "left" } }

/-- C4: applyFormattingRule writes exactly the properties defined on the rule
(fontFamily when the host resolves it, fontSize, leading as rule.fontSize
times rule.lineHeight, characterSpacing, color as the parsed RGB) and leaves
every property not defined on the rule unchanged — stated as one record
equation: undefined rule properties keep the frame's old value, and the
fields never written by the rule engine (contents, kerning mode,
justification) are untouched by construction of the update. Also the
scenario: the heading rule with threshold 18 and fontSize 24 sets size 24 on
a 20pt frame and leaves a 16pt frame entirely untouched. The truthiness
hypotheses state that defined properties carry non-falsy values, as the data
model requires, and that the host resolves the requested font. -/
theorem applyFormattingRule_writes (resolveFont : String → Bool) (tr : TRange) (rule : FormatRule)
    (hff : ∀ f, rule.fontFamily = some f → f ≠ "" ∧ resolveFont f = true)
    (hfs : ∀ s, rule.fontSize = some s → s ≠ 0)
    (hlh : ∀ l, rule.lineHeight = some l → l ≠ 0)
    (hcs : ∀ k, rule.characterSpacing = some k → k ≠ 0)
    (hcol : ∀ c, rule.color = some c → c ≠ "") :
    (applyFormattingRule resolveFont tr rule =
      { tr with
        textFont := (match rule.fontFamily with | some f => f | none => tr.textFont)
        size := (match rule.fontSize with | some s => s | none => tr.size)
        leading := (match rule.lineHeight with
          | some l => jsMulOpt rule.fontSize l
          | none => tr.leading)
        tracking := (match rule.characterSpacing with | some k => k | none => tr.tracking)
        fillColor := (match rule.color with | some c => parseColor c | none => tr.fillColor) }) ∧
    shouldApplyRule frame20 ruleHeading24 = true ∧
    (applyRulesToFrame (fun _ => true) frame20 [ruleHeading24]).1.tr.size = 24 ∧
    shouldApplyRule frame16 ruleHeading24 = false ∧
    applyRulesToFrame (fun _ => true) frame16 [ruleHeading24] = (frame16, []) := by
  have hsc1 : shouldApplyRule frame20 ruleHeading24 = true := by
    norm_num [shouldApplyRule, frame20, ruleHeading24, jsOr]
  have hsc3 : shouldApplyRule frame16 ruleHeading24 = false := by
    norm_num [shouldApplyRule, frame16, ruleHeading24, jsOr]
  have hsc2 : (applyRulesToFrame (fun _ => true) frame20 [ruleHeading24]).1.tr.size = 24 := by
    simp only [applyRulesToFrame, List.enum, List.enumFrom, List.foldl_cons, List.foldl_nil,
      hsc1, if_true]
    norm_num [applyFormattingRule, ruleHeading24]
  have hsc4 : applyRulesToFrame (fun _ => true) frame16 [ruleHeading24] = (frame16, []) := by
    simp [applyRulesToFrame, List.enum, List.enumFrom, hsc3]
  refine ⟨?_, hsc1, hsc2, hsc3, hsc4⟩
  clear hsc1 hsc2 hsc3 hsc4
  obtain ⟨nm, sel, thr, txt, ff, fs, lhf, csf, col⟩ := rule
  simp only at hff hfs hlh hcs hcol
  rcases ff with _ | f <;> rcases fs with _ | s <;> rcases lhf with _ | l <;>
    rcases csf with _ | k <;> rcases col with _ | c
  all_goals simp_all [applyFormattingRule, jsMulOpt]

/-- A rule defining every writable property. -/
def ruleFull : FormatRule :=
  { name := some "full", selector := "all", headingThreshold := none, text := none,
    fontFamily := some "Helvetica", fontSize := some 24, lineHeight := some (3/2),
    characterSpacing := some (1/20), color := some "#102030" }

/-- Witness for the C4 theorem: the fully defined rule rewrites exactly the
five rule-writable fields of a concrete frame. -/
theorem applyFormattingRule_writes_witness :
    applyFormattingRule (fun _ => true) frame16.tr ruleFull =
      { frame16.tr with
        textFont := "Helvetica"
        size := 24
        leading := jsMulOpt (some 24) (3/2)
        tracking := 1/20
        fillColor := parseColor "#102030" } := by
  have h := (applyFormattingRule_writes (fun _ => true) frame16.tr ruleFull
    (by intro f hf
        simp only [ruleFull, Option.some.injEq] at hf
        subst hf
        exact ⟨by decide, rfl⟩)
    (by intro s hs
        simp only [ruleFull, Option.some.injEq] at hs
        subst hs
        norm_num)
    (by intro l hl
        simp only [ruleFull, Option.some.injEq] at hl
        subst hl
        norm_num)
    (by intro k hk
        simp only [ruleFull, Option.some.injEq] at hk
        subst hk
        norm_num)
    (by intro c hc
        simp only [ruleFull, Option.some.injEq] at hc
        subst hc
        decide)).1
  simpa [ruleFull] using h

/-- A FormatRule with an unknown selector. -/
def ruleWeird : FormatRule :=
  { name := some "w", selector := "weird", headingThreshold := none, text := none,
    fontFamily := none, fontSize := some 30, lineHeight := none,
    characterSpacing := none, color := none }

/-- C9, counterexample: a FormatRule whose selector is not one of all,
heading, body, contains surfaces no failure at all — shouldApplyRule just
returns false and batchFormatText succeeds, reporting the rule as applied to
nothing and leaving the frame untouched — contradicting the claim that any
invalid configuration is surfaced as a named failure to the caller. -/
theorem invalid_selector_counterexample :
    shouldApplyRule frame16 ruleWeird = false ∧
      batchFormatText [frame16] [ruleWeird] (fun _ => true) = Except.ok [(frame16, [])] := by
  have h : shouldApplyRule frame16 ruleWeird = false := rfl
  refine ⟨h, ?_⟩
  simp [batchFormatText, applyRulesToFrame, List.enum, List.enumFrom, h]

/-- C9 (amended): an unknown fix type is surfaced as a named failure carrying
the offending identifier and fails only that single applyTypographyFix call
(the four known fix types always return a success payload, so independent
calls of a batch are unaffected); an unknown FormatRule selector, however, is
not surfaced: the rule silently matches no element. -/
theorem invalid_config_handling :
    (∀ (fixType : String) (selection : List SFrame) (p : FixParams),
        fixType ∉ (["kerning", "hierarchy", "readability", "alignment"] : List String) →
          applyTypographyFix fixType selection p
            = Except.error ("Unknown fix type: " ++ fixType)) ∧
    (∀ (fixType : String) (selection : List SFrame) (p : FixParams),
        fixType ∈ (["kerning", "hierarchy", "readability", "alignment"] : List String) →
          ∃ out, applyTypographyFix fixType selection p = Except.ok out) ∧
    (∀ (f : SFrame) (rule : FormatRule),
        rule.selector ∉ (["all", "heading", "body", "contains"] : List String) →
          shouldApplyRule f rule = false) := by
  refine ⟨?_, ?_, ?_⟩
  · intro ft sel p hft
    simp only [applyTypographyFix]
    split <;> simp_all
  · intro ft sel p hft
    simp only [List.mem_cons, List.not_mem_nil, or_false] at hft
    rcases hft with h | h | h | h <;> subst h
    · exact ⟨_, rfl⟩
    · exact ⟨_, rfl⟩
    · exact ⟨_, rfl⟩
    · exact ⟨_, rfl⟩
  · intro f rule hsel
    simp only [shouldApplyRule]
    split <;> simp_all

/-- Placeholder fix parameters. -/
def pEmpty : FixParams :=
  { opticalKerning := false, kerningPairs := false, tracking := none,
    scaleRatio := none, baseSize := none, lineHeight := none,
    characterSpacing := none, alignment := none }

/-- Witness for the amended C9 theorem: the unknown fix type resize fails
with the named error and the unknown selector weird matches nothing. -/
theorem invalid_config_handling_witness :
    applyTypographyFix "resize" [frame16] pEmpty
        = Except.error ("Unknown fix type: " ++ "resize") ∧
      shouldApplyRule frame16 ruleWeird = false := by
  have h := invalid_config_handling
  exact ⟨h.1 "resize" [frame16] pEmpty (by decide),
    h.2.2 frame16 ruleWeird (by decide)⟩

/-- The second component of a member of enum l is a member of l. -/
theorem snd_mem_of_mem_enum {α : Type} {l : List α} {q : Nat × α} (hq : q ∈ l.enum) :
    q.2 ∈ l := by
  obtain ⟨i, hi, he⟩ := List.mem_iff_getElem.mp hq
  have hi2 : i < l.length := by simpa [List.enum_length] using hi
  rw [List.getElem_enum] at he
  subst he
  exact List.getElem_mem hi2

/-- With an all-TextFrame selection the typename filter keeps every member,
so the sorted list has the selection's length. -/
theorem hierarchySorted_length (selection : List SFrame)
    (hTF : ∀ f ∈ selection, f.typename = "TextFrame") :
    (hierarchySorted selection).length = selection.length := by
  have hfil : (selection.enum.filter fun q => decide (q.2.typename = "TextFrame"))
      = selection.enum :=
    List.filter_eq_self.mpr (fun q hq => by
      simp only [decide_eq_true_eq]
      exact hTF q.2 (snd_mem_of_mem_enum hq))
  unfold hierarchySorted
  rw [hfil, (List.perm_insertionSort _ _).length_eq, List.enum_length]

/-- Pointwise description of applyHierarchyFix: the rank-j entry carries the
rank-j sorted frame's original index and old size, and the geometric new
size. -/
theorem applyHierarchyFix_getD (selection : List SFrame) (p : FixParams) (j : Nat)
    (hj : j < (hierarchySorted selection).length) :
    (applyHierarchyFix selection p).getD j ⟨0, 0, 0⟩ =
      { index := ((hierarchySorted selection).get ⟨j, hj⟩).1,
        oldSize := ((hierarchySorted selection).get ⟨j, hj⟩).2.tr.size,
        newSize := hierNewSize p (hierarchySorted selection).length j
          ((hierarchySorted selection).get ⟨j, hj⟩).2.tr.size } := by
  have hlen : (applyHierarchyFix selection p).length = (hierarchySorted selection).length := by
    simp [applyHierarchyFix, List.enum_length]
  have hj2 : j < (applyHierarchyFix selection p).length := by omega
  rw [List.getD_eq_getElem _ _ hj2]
  simp [applyHierarchyFix, List.getElem_map, List.getElem_enum, List.get_eq_getElem]

/-- A TextFrame of the given font size. -/
def sizedFrame (sz : ℚ) : SFrame :=
  { typename := "TextFrame",
    tr := { size := sz, textFont := "Arial", leading := JNum.val 0, tracking := 0,
            fillColor := (JNum.val 0, JNum.val 0, JNum.val 0), contents := "t",
            autoKernOptical := false, justification := "left" } }

/-- C5: when a truthy baseSize b is supplied, applyHierarchyFix assigns the
element ranked j by descending current font size (rank 0 the largest, per the
descending-oldSize conjunct) the new size b * r^(n-1-j) where r is
scaleRatio with the JavaScript || default 1.25 (jsOr); when baseSize is
absent every element keeps its size; and the scenario: frames with sizes
24, 18, 12 under baseSize 12, scaleRatio 1.25 receive 18.75, 15, 12. -/
theorem applyHierarchyFix_geometric (selection : List SFrame) (p : FixParams)
    (hTF : ∀ f ∈ selection, f.typename = "TextFrame") :
    ((∀ b, p.baseSize = some b → b ≠ 0 → ∀ j, j < selection.length →
        ((applyHierarchyFix selection p).getD j ⟨0, 0, 0⟩).newSize
          = b * jsOr p.scaleRatio (5/4) ^ (selection.length - j - 1)) ∧
      (p.baseSize = none → ∀ j, j < selection.length →
        ((applyHierarchyFix selection p).getD j ⟨0, 0, 0⟩).newSize
          = ((applyHierarchyFix selection p).getD j ⟨0, 0, 0⟩).oldSize) ∧
      (∀ j, j + 1 < selection.length →
        ((applyHierarchyFix selection p).getD (j + 1) ⟨0, 0, 0⟩).oldSize
          ≤ ((applyHierarchyFix selection p).getD j ⟨0, 0, 0⟩).oldSize)) ∧
    (applyHierarchyFix [sizedFrame 24, sizedFrame 18, sizedFrame 12]
        { pEmpty with baseSize := some 12, scaleRatio := some (5/4) }).map
          (fun h => (h.index, h.oldSize, h.newSize))
      = [(0, 24, 75/4), (1, 18, 15), (2, 12, 12)] := by
  have hn := hierarchySorted_length selection hTF
  refine ⟨⟨?_, ?_, ?_⟩, ?_⟩
  · intro b hb hb0 j hj
    have hj2 : j < (hierarchySorted selection).length := by omega
    rw [applyHierarchyFix_getD selection p j hj2]
    simp only [hierNewSize, hb, if_neg hb0, hn]
  · intro hb j hj
    have hj2 : j < (hierarchySorted selection).length := by omega
    rw [applyHierarchyFix_getD selection p j hj2]
    simp only [hierNewSize, hb]
  · intro j hj
    have hj1 : j + 1 < (hierarchySorted selection).length := by omega
    have hj0 : j < (hierarchySorted selection).length := by omega
    rw [applyHierarchyFix_getD selection p j hj0,
      applyHierarchyFix_getD selection p (j + 1) hj1]
    haveI : IsTotal (Nat × SFrame) (fun a b => a.2.tr.size ≥ b.2.tr.size) :=
      ⟨fun a b => le_total b.2.tr.size a.2.tr.size⟩
    haveI : IsTrans (Nat × SFrame) (fun a b => a.2.tr.size ≥ b.2.tr.size) :=
      ⟨fun a b c hab hbc => le_trans hbc hab⟩
    have hsorted : (hierarchySorted selection).Sorted
        (fun a b : Nat × SFrame => a.2.tr.size ≥ b.2.tr.size) :=
      List.sorted_insertionSort _ _
    exact hsorted.rel_get_of_lt (a := ⟨j, hj0⟩) (b := ⟨j + 1, hj1⟩)
      (Fin.mk_lt_mk.mpr (Nat.lt_succ_self j))
  · norm_num [applyHierarchyFix, hierarchySorted, hierNewSize, sizedFrame, pEmpty,
      List.insertionSort, List.orderedInsert, List.enum, List.enumFrom, jsOr]

/-- Witness for the C5 theorem: the largest scenario frame receives
12 * 1.25^2 = 18.75. -/
theorem applyHierarchyFix_geometric_witness :
    ((applyHierarchyFix [sizedFrame 24, sizedFrame 18, sizedFrame 12]
        { pEmpty with baseSize := some 12, scaleRatio := some (5/4) }).getD 0
          ⟨0, 0, 0⟩).newSize = 75/4 := by
  have h := (applyHierarchyFix_geometric [sizedFrame 24, sizedFrame 18, sizedFrame 12]
    { pEmpty with baseSize := some 12, scaleRatio := some (5/4) }
    (by intro f hf
        fin_cases hf <;> rfl)).1.1 12 rfl (by norm_num) 0 (by norm_num)
  rw [h]
  norm_num [jsOr]

/-- With an all-TextFrame selection, the sorted list is a permutation of the
enumerated selection. -/
theorem hierarchySorted_perm (selection : List SFrame)
    (hTF : ∀ f ∈ selection, f.typename = "TextFrame") :
    (hierarchySorted selection).Perm selection.enum := by
  have hfil : (selection.enum.filter fun q => decide (q.2.typename = "TextFrame"))
      = selection.enum :=
    List.filter_eq_self.mpr (fun q hq => by
      simp only [decide_eq_true_eq]
      exact hTF q.2 (snd_mem_of_mem_enum hq))
  unfold hierarchySorted
  rw [hfil]
  exact List.perm_insertionSort _ _

/-- applyHierarchyFix returns one record per sorted frame. -/
theorem applyHierarchyFix_length (selection : List SFrame) (p : FixParams) :
    (applyHierarchyFix selection p).length = (hierarchySorted selection).length := by
  simp [applyHierarchyFix, List.enum_length]

/-- The indices of the applyHierarchyFix records, in rank order, are the
original indices of the sorted frames. -/
theorem applyHierarchyFix_map_index (selection : List SFrame) (p : FixParams) :
    (applyHierarchyFix selection p).map (fun h => h.index)
      = (hierarchySorted selection).map Prod.fst := by
  apply List.ext_getElem
  · simp [applyHierarchyFix, List.enum_length]
  · intro i h1 h2
    simp [applyHierarchyFix, List.getElem_map, List.getElem_enum]

/-- With an all-TextFrame selection, the record indices are a permutation of
0..n-1: every original index receives exactly one assignment. -/
theorem applyHierarchyFix_index_perm (selection : List SFrame) (p : FixParams)
    (hTF : ∀ f ∈ selection, f.typename = "TextFrame") :
    ((applyHierarchyFix selection p).map (fun h => h.index)).Perm
      (List.range selection.length) := by
  rw [applyHierarchyFix_map_index]
  have h := (hierarchySorted_perm selection hTF).map Prod.fst
  rw [List.enum_map_fst] at h
  exact h

/-- Looking up an index in a record list whose indices enumerate 0..n-1
exactly once: find? returns the unique record with that index. -/
theorem find_index_eq (res : List HierarchyResult) (n : Nat)
    (hperm : (res.map (fun h => h.index)).Perm (List.range n))
    (i : Nat) (hi : i < n) :
    ∃ e, res.find? (fun h => h.index == i) = some e ∧ e ∈ res ∧ e.index = i ∧
      (∀ e2 ∈ res, e2.index = i → e2 = e) := by
  have hnodup : (res.map (fun h => h.index)).Nodup :=
    (hperm.nodup_iff).mpr (List.nodup_range n)
  have hmemi : i ∈ res.map (fun h => h.index) :=
    (hperm.mem_iff).mpr (List.mem_range.mpr hi)
  obtain ⟨e0, he0, hei0⟩ := List.mem_map.mp hmemi
  have hex : (res.find? (fun h => h.index == i)).isSome = true :=
    List.find?_isSome.mpr ⟨e0, he0, by simp [hei0]⟩
  obtain ⟨e, hfind⟩ := Option.isSome_iff_exists.mp hex
  have hmem : e ∈ res := List.mem_of_find?_eq_some hfind
  have hidx : e.index = i := by
    have h := List.find?_some hfind
    simpa using h
  refine ⟨e, hfind, hmem, hidx, ?_⟩
  intro e2 he2 hi2
  exact List.inj_on_of_nodup_map hnodup he2 hmem (by rw [hi2, hidx])

/-- applyHierarchyFixSel preserves the selection's length. -/
theorem applyHierarchyFixSel_length (selection : List SFrame) (p : FixParams) :
    (applyHierarchyFixSel selection p).length = selection.length := by
  simp [applyHierarchyFixSel, List.enum_length]

/-- applyHierarchyFixSel preserves typenames: the size write keeps each frame
a TextFrame. -/
theorem applyHierarchyFixSel_typename (selection : List SFrame) (p : FixParams)
    (hTF : ∀ f ∈ selection, f.typename = "TextFrame") :
    ∀ f ∈ applyHierarchyFixSel selection p, f.typename = "TextFrame" := by
  intro f hf
  obtain ⟨q, hq, hfq⟩ := List.mem_map.mp hf
  have hq2 := hTF q.2 (snd_mem_of_mem_enum hq)
  rw [← hfq]
  rcases hmatch : (applyHierarchyFix selection p).find? (fun h => h.index == q.1) with _ | h <;>
    simp [hmatch, hq2]

/-- Core counting argument: if the indices of a record list enumerate 0..n-1
exactly once, then looking up each index 0..n-1 and taking its assigned size
yields a permutation of the assigned sizes. -/
theorem range_map_lookup_perm (res : List HierarchyResult) (n : Nat)
    (hlen : res.length = n)
    (hperm : (res.map (fun h => h.index)).Perm (List.range n)) :
    ((List.range n).map
        (fun i => ((res.find? (fun h => h.index == i)).getD ⟨0, 0, 0⟩).newSize)).Perm
      (res.map (fun h => h.newSize)) := by
  have hnodup : (res.map (fun h => h.index)).Nodup :=
    (hperm.nodup_iff).mpr (List.nodup_range n)
  have hσlt : ∀ i, i < n → res.findIdx (fun h => h.index == i) < res.length := by
    intro i hi
    obtain ⟨e, -, hmem, hidx, -⟩ := find_index_eq res n hperm i hi
    exact List.findIdx_lt_length_of_exists ⟨e, hmem, by simp [hidx]⟩
  have hσidx : ∀ i (hi : i < n),
      (res.get ⟨res.findIdx (fun h => h.index == i), hσlt i hi⟩).index = i := by
    intro i hi
    have h := @List.findIdx_getElem _ (fun h => h.index == i) res (hσlt i hi)
    simpa [List.get_eq_getElem] using h
  have hfind_get : ∀ i (hi : i < n),
      (res.find? (fun h => h.index == i)).getD ⟨0, 0, 0⟩
        = res.get ⟨res.findIdx (fun h => h.index == i), hσlt i hi⟩ := by
    intro i hi
    obtain ⟨e, hfind, hmem, hidx, huniq⟩ := find_index_eq res n hperm i hi
    rw [hfind]
    simp only [Option.getD_some]
    exact (huniq _ (List.get_mem _ _ _) (hσidx i hi)).symm
  have hstep : ((List.range n).map (fun i => res.findIdx (fun h => h.index == i))).Perm
      (List.range n) := by
    have hnodupσ : ((List.range n).map
        (fun i => res.findIdx (fun h => h.index == i))).Nodup := by
      refine List.Nodup.map_on ?_ (List.nodup_range n)
      intro i1 h1 i2 h2 heq
      have hi1 := List.mem_range.mp h1
      have hi2 := List.mem_range.mp h2
      have e1 := hσidx i1 hi1
      have e2 := hσidx i2 hi2
      have hfin : (⟨res.findIdx (fun h => h.index == i1), hσlt i1 hi1⟩ : Fin res.length)
          = ⟨res.findIdx (fun h => h.index == i2), hσlt i2 hi2⟩ := Fin.ext heq
      rw [← e1, ← e2, hfin]
    rw [List.perm_ext_iff_of_nodup hnodupσ (List.nodup_range n)]
    intro j
    simp only [List.mem_map, List.mem_range]
    constructor
    · rintro ⟨i, hi, rfl⟩
      have := hσlt i hi
      omega
    · intro hj
      have hjres : j < res.length := by omega
      have hidxmem : (res.get ⟨j, hjres⟩).index ∈ res.map (fun h => h.index) :=
        List.mem_map.mpr ⟨_, List.get_mem _ _ _, rfl⟩
      have hin : (res.get ⟨j, hjres⟩).index < n :=
        List.mem_range.mp ((hperm.mem_iff).mp hidxmem)
      refine ⟨(res.get ⟨j, hjres⟩).index, hin, ?_⟩
      have hmm : ((res.map (fun h => h.index)).get
            ⟨res.findIdx (fun h => h.index == (res.get ⟨j, hjres⟩).index),
              by simpa using hσlt _ hin⟩)
          = ((res.map (fun h => h.index)).get ⟨j, by simpa using hjres⟩) := by
        simp only [List.get_eq_getElem, List.getElem_map]
        have h1 := hσidx _ hin
        simp only [List.get_eq_getElem] at h1
        rw [h1]
      simp only [List.get_eq_getElem] at hmm
      exact (hnodup.getElem_inj_iff).mp hmm
  have hA : (List.range n).map
        (fun i => ((res.find? (fun h => h.index == i)).getD ⟨0, 0, 0⟩).newSize)
      = ((List.range n).map (fun i => res.findIdx (fun h => h.index == i))).map
          (fun k => (res.getD k ⟨0, 0, 0⟩).newSize) := by
    rw [List.map_map]
    apply List.ext_getElem
    · simp
    · intro i h1 h2
      have hi : i < n := by simpa using h1
      simp only [List.getElem_map, List.getElem_range, Function.comp]
      rw [hfind_get i hi, List.getD_eq_getElem _ _ (hσlt i hi)]
      simp [List.get_eq_getElem]
  have hD : (List.range n).map (fun k => (res.getD k ⟨0, 0, 0⟩).newSize)
      = res.map (fun h => h.newSize) := by
    apply List.ext_getElem
    · simp [hlen]
    · intro j h1 h2
      have hj : j < res.length := by simpa [hlen] using h1
      simp only [List.getElem_map, List.getElem_range]
      rw [List.getD_eq_getElem _ _ hj]
  rw [hA]
  have h := hstep.map (fun k => (res.getD k ⟨0, 0, 0⟩).newSize)
  rw [hD] at h
  exact h

/-- Mapping a function of the element over an enumerated list ignores the
indices. -/
theorem enum_map_snd_comp {α β : Type} (l : List α) (g : α → β) :
    l.enum.map (fun q => g q.2) = l.map g := by
  rw [show (fun q : Nat × α => g q.2) = g ∘ Prod.snd from rfl, ← List.map_map,
    List.enum_map_snd]

/-- The sizes present on the selection after applyHierarchyFix's writes are a
permutation of the sizes it assigned: every frame receives exactly one
assignment. -/
theorem applyHierarchyFixSel_sizes_perm (selection : List SFrame) (p : FixParams)
    (hTF : ∀ f ∈ selection, f.typename = "TextFrame") :
    ((applyHierarchyFixSel selection p).map (fun f => f.tr.size)).Perm
      ((applyHierarchyFix selection p).map (fun h => h.newSize)) := by
  have hn : (hierarchySorted selection).length = selection.length :=
    hierarchySorted_length selection hTF
  have hlenres : (applyHierarchyFix selection p).length = selection.length := by
    rw [applyHierarchyFix_length, hn]
  have hperm := applyHierarchyFix_index_perm selection p hTF
  have hL : (applyHierarchyFixSel selection p).map (fun f => f.tr.size)
      = (List.range selection.length).map
          (fun i => (((applyHierarchyFix selection p).find?
            (fun h => h.index == i)).getD ⟨0, 0, 0⟩).newSize) := by
    apply List.ext_getElem
    · simp [applyHierarchyFixSel, List.enum_length]
    · intro i h1 h2
      have hi : i < selection.length := by
        simpa [applyHierarchyFixSel, List.enum_length] using h1
      obtain ⟨e, hfind, hmem, hidx, huniq⟩ :=
        find_index_eq (applyHierarchyFix selection p) selection.length hperm i hi
      simp only [applyHierarchyFixSel, List.getElem_map, List.getElem_enum,
        List.getElem_range]
      rw [hfind]
      simp
  rw [hL]
  exact range_map_lookup_perm _ _ hlenres hperm

/-- With truthy baseSize and scaleRatio, the sizes assigned by
applyHierarchyFix are, in rank order, the geometric sequence b * r^(n-1-j). -/
theorem applyHierarchyFix_newSizes (selection : List SFrame) (p : FixParams) (b r : ℚ)
    (hTF : ∀ f ∈ selection, f.typename = "TextFrame")
    (hb : p.baseSize = some b) (hb0 : b ≠ 0)
    (hr : p.scaleRatio = some r) (hr0 : r ≠ 0) :
    (applyHierarchyFix selection p).map (fun h => h.newSize)
      = (List.range selection.length).map
          (fun j => b * r ^ (selection.length - j - 1)) := by
  have hn : (hierarchySorted selection).length = selection.length :=
    hierarchySorted_length selection hTF
  apply List.ext_getElem
  · simp [applyHierarchyFix, List.enum_length, hn]
  · intro j h1 h2
    simp only [List.getElem_map, List.getElem_range]
    simp [applyHierarchyFix, List.getElem_map, List.getElem_enum, hierNewSize,
      hb, hb0, jsOr, hr, hr0, hn]

/-- C8 (amended): for a supplied baseSize b > 0 and scaleRatio r > 1 on an
all-TextFrame selection, a second run of applyHierarchyFix on the output of
the first assigns every element exactly the size it already received: after
the first pass the sizes are the strictly descending geometric sequence, so
the second descending sort ranks every frame at the position whose size it
already carries. -/
theorem applyHierarchyFix_idempotent (selection : List SFrame) (p : FixParams) (b r : ℚ)
    (hTF : ∀ f ∈ selection, f.typename = "TextFrame")
    (hb : p.baseSize = some b) (hb0 : 0 < b)
    (hr : p.scaleRatio = some r) (hr1 : 1 < r) :
    ∀ e ∈ applyHierarchyFix (applyHierarchyFixSel selection p) p,
      e.newSize = e.oldSize := by
  have hbne : b ≠ 0 := ne_of_gt hb0
  have hrne : r ≠ 0 := ne_of_gt (lt_trans zero_lt_one hr1)
  have hTF2 := applyHierarchyFixSel_typename selection p hTF
  have hlen2 : (applyHierarchyFixSel selection p).length = selection.length :=
    applyHierarchyFixSel_length selection p
  have hn2 : (hierarchySorted (applyHierarchyFixSel selection p)).length
      = selection.length := by
    rw [hierarchySorted_length _ hTF2, hlen2]
  have hsizesperm : ((hierarchySorted (applyHierarchyFixSel selection p)).map
        (fun q => q.2.tr.size)).Perm
      ((List.range selection.length).map
        (fun j => b * r ^ (selection.length - j - 1))) := by
    have hp1 : ((hierarchySorted (applyHierarchyFixSel selection p)).map
          (fun q => q.2.tr.size)).Perm
        ((applyHierarchyFixSel selection p).map (fun f => f.tr.size)) := by
      have h := (hierarchySorted_perm _ hTF2).map (fun q : Nat × SFrame => q.2.tr.size)
      rwa [enum_map_snd_comp (applyHierarchyFixSel selection p) (fun f => f.tr.size)] at h
    have hp2 := applyHierarchyFixSel_sizes_perm selection p hTF
    have heq := applyHierarchyFix_newSizes selection p b r hTF hb hbne hr hrne
    have h := hp1.trans hp2
    rwa [heq] at h
  have htarget_sorted : List.Sorted (fun a c : ℚ => a ≥ c)
      ((List.range selection.length).map
        (fun j => b * r ^ (selection.length - j - 1))) := by
    rw [List.Sorted, List.pairwise_map]
    refine (List.pairwise_lt_range selection.length).imp_of_mem ?_
    intro x y hx hy hxy
    have hyn : y < selection.length := List.mem_range.mp hy
    have hle : selection.length - y - 1 ≤ selection.length - x - 1 := by omega
    have hpow : r ^ (selection.length - y - 1) ≤ r ^ (selection.length - x - 1) :=
      pow_le_pow_right₀ (le_of_lt hr1) hle
    nlinarith
  have hsorted2 : List.Sorted (fun a c : ℚ => a ≥ c)
      ((hierarchySorted (applyHierarchyFixSel selection p)).map
        (fun q => q.2.tr.size)) := by
    rw [List.Sorted, List.pairwise_map]
    haveI : IsTotal (Nat × SFrame) (fun a c => a.2.tr.size ≥ c.2.tr.size) :=
      ⟨fun a c => le_total c.2.tr.size a.2.tr.size⟩
    haveI : IsTrans (Nat × SFrame) (fun a c => a.2.tr.size ≥ c.2.tr.size) :=
      ⟨fun a c d hac hcd => le_trans hcd hac⟩
    exact List.sorted_insertionSort _ _
  have hEQ := List.eq_of_perm_of_sorted hsizesperm hsorted2 htarget_sorted
  intro e he
  obtain ⟨q, hq, hFq⟩ := List.mem_map.mp he
  obtain ⟨k, hk, hek⟩ := List.mem_iff_getElem.mp hq
  have hk2 : k < (hierarchySorted (applyHierarchyFixSel selection p)).length := by
    simpa [List.enum_length] using hk
  rw [List.getElem_enum] at hek
  subst hek
  rw [← hFq]
  have hkn : k < selection.length := by omega
  have hold := List.getElem_of_eq hEQ (by simpa using hk2 :
    k < ((hierarchySorted (applyHierarchyFixSel selection p)).map
      (fun q => q.2.tr.size)).length)
  simp only [List.getElem_map, List.getElem_range] at hold
  simp only [hierNewSize, hb, hbne, if_neg hbne, jsOr, hr, hn2]
  rw [if_neg hrne]
  exact hold.symm ▸ hold

/-- Scale-down parameters: baseSize 8, scaleRatio 1/2. -/
def pHalf : FixParams :=
  { pEmpty with baseSize := some 8, scaleRatio := some (1/2) }

/-- C8, counterexample: with the supplied scaleRatio 1/2 the assignment is
anti-monotone — the largest frame gets the smallest size — so re-applying the
fix swaps the sizes instead of reproducing them: on frames of sizes 8 and 4,
the first application gives element 0 the size 4, the second gives it 8. -/
theorem applyHierarchyFix_idempotent_counterexample :
    (applyHierarchyFix [sizedFrame 8, sizedFrame 4] pHalf).find? (fun h => h.index == 0)
        = some ⟨0, 8, 4⟩ ∧
      (applyHierarchyFix (applyHierarchyFixSel [sizedFrame 8, sizedFrame 4] pHalf)
          pHalf).find? (fun h => h.index == 0) = some ⟨0, 4, 8⟩ ∧
      (4 : ℚ) ≠ 8 := by
  refine ⟨?_, ?_, by norm_num⟩ <;>
    norm_num [applyHierarchyFix, applyHierarchyFixSel, hierarchySorted, hierNewSize,
      pHalf, pEmpty, sizedFrame, List.insertionSort, List.orderedInsert, List.enum,
      List.enumFrom, jsOr, List.find?,
      show ((0:Nat) == 0) = true from rfl, show ((0:Nat) == 1) = false from rfl,
      show ((1:Nat) == 0) = false from rfl, show ((1:Nat) == 1) = true from rfl]

/-- Witness for the amended C8 theorem: on the scenario selection with
baseSize 12 and scaleRatio 1.25, the second application's first record
assigns the size the frame already has. -/
theorem applyHierarchyFix_idempotent_witness :
    ((applyHierarchyFix (applyHierarchyFixSel
          [sizedFrame 24, sizedFrame 18, sizedFrame 12]
          { pEmpty with baseSize := some 12, scaleRatio := some (5/4) })
        { pEmpty with baseSize := some 12, scaleRatio := some (5/4) }).getD 0
          ⟨0, 0, 0⟩).newSize
      = ((applyHierarchyFix (applyHierarchyFixSel
          [sizedFrame 24, sizedFrame 18, sizedFrame 12]
          { pEmpty with baseSize := some 12, scaleRatio := some (5/4) })
        { pEmpty with baseSize := some 12, scaleRatio := some (5/4) }).getD 0
          ⟨0, 0, 0⟩).oldSize := by
  have hTF : ∀ f ∈ [sizedFrame 24, sizedFrame 18, sizedFrame 12],
      f.typename = "TextFrame" := by
    intro f hf
    fin_cases hf <;> rfl
  have h := applyHierarchyFix_idempotent [sizedFrame 24, sizedFrame 18, sizedFrame 12]
    { pEmpty with baseSize := some 12, scaleRatio := some (5/4) } 12 (5/4) hTF rfl
    (by norm_num) rfl (by norm_num)
  apply h
  have hlen : 0 < (applyHierarchyFix (applyHierarchyFixSel
      [sizedFrame 24, sizedFrame 18, sizedFrame 12]
      { pEmpty with baseSize := some 12, scaleRatio := some (5/4) })
    { pEmpty with baseSize := some 12, scaleRatio := some (5/4) }).length := by
    rw [applyHierarchyFix_length,
      hierarchySorted_length _ (applyHierarchyFixSel_typename _ _ hTF),
      applyHierarchyFixSel_length]
    norm_num
  rw [List.getD_eq_getElem _ _ hlen]
  exact List.getElem_mem hlen
